import Mathlib

/-!
# Litechat — verification of the fan-out / registry / expiry core

Shallow embedding of the real-time chat server core
(`server/routes.ts`-style file and `server/storage.ts`):

* the WebSocket connection registry (`clients : Map<number, WebSocketClient[]>`,
  the `auth` message handler, the `close` handler);
* the delivery router (`sendToUser`);
* the ChatKey scheme (`"group_" + id` vs `"<a>_<b>"`, decoded with
  `startsWith` / `replace` / `split('_')` / `parseInt`);
* the `POST /api/messages` handler shape (persist, then route, inside one
  `try`/`catch`);
* the two cleanup intervals and `MemStorage.deleteMessage` /
  `MemStorage.deleteStatus` / `MemStorage.createStatus` /
  `MemStorage.getActiveStatuses`.

Modelling conventions:

* JS strings are lists of UTF-16 code units (`JStr := List Nat`).
* `Date` values are integer millisecond timestamps (`Int`);
  `setDate(d ± n)` is modelled as `± n * 86400000` ms.
* A JS `Map` is an insertion-ordered association list; `get`/`set`/`delete`/
  `has` are `mapGet`/`mapSet`/`mapDelete`/`mapHas` below.
* A WebSocket object is identified by a `Nat` (its reference identity);
  its `readyState` is given by an environment `env : Nat → Nat`, with
  `WebSocket.OPEN = 1`.
* `null`/`undefined`/`NaN` become `Option` (`none` = absent / NaN);
  JS truthiness of a `number | undefined` is `jsTruthyNat`.
* Rejected promises / thrown exceptions become `Except Unit`.
-/

/-! ## JS `Map` as an insertion-ordered association list -/

/-- `Map.get(k)`: first entry with key `k`, if any. -/
def mapGet {α : Type} (m : List (Nat × α)) (k : Nat) : Option α :=
  (m.find? (fun p => p.1 = k)).map (fun p => p.2)

/-- `Map.has(k)`. -/
def mapHas {α : Type} (m : List (Nat × α)) (k : Nat) : Bool :=
  m.any (fun p => p.1 = k)

/-- `Map.set(k, v)`: replace the value at `k` if present, else append. -/
def mapSet {α : Type} (m : List (Nat × α)) (k : Nat) (v : α) : List (Nat × α) :=
  if mapHas m k then m.map (fun p => if p.1 = k then (k, v) else p)
  else m ++ [(k, v)]

/-- `Map.delete(k)`. -/
def mapDelete {α : Type} (m : List (Nat × α)) (k : Nat) : List (Nat × α) :=
  m.filter (fun p => p.1 ≠ k)

/-- JS truthiness of a `number | undefined` value (`undefined`, `0` falsy). -/
def jsTruthyNat : Option Nat → Bool
  | none => false
  | some n => n ≠ 0

/-! ## Connection registry

`const clients = new Map<number, WebSocketClient[]>()` — a socket is a `Nat`
(reference identity), the registry maps a userId to the list of sockets
pushed for it. -/

/-- The `clients` map: userId ↦ registered sockets, in push order. -/
abbrev Registry := List (Nat × List Nat)

/-- `WebSocket.OPEN`. -/
def wsOPEN : Nat := 1

/-- `clients.get(userId) || []`. -/
def connectionsFor (r : Registry) (uid : Nat) : List Nat :=
  (mapGet r uid).getD []

/-- `sendToUser(userId, data)`: iterate the registered sockets and send to
each whose `readyState === WebSocket.OPEN`; returns the list of sockets the
payload was sent to (the send trace), in iteration order. -/
def sendToUser (env : Nat → Nat) (r : Registry) (uid : Nat) : List Nat :=
  let userSockets := connectionsFor r uid
  userSockets.filter (fun s => env s = wsOPEN)

/-- The `auth` branch of the `message` handler:
`if (!clients.has(userId)) clients.set(userId, []); clients.get(userId)?.push(ws)`. -/
def authHandler (r : Registry) (uid : Nat) (ws : Nat) : Registry :=
  let r1 := if mapHas r uid = false then mapSet r uid [] else r
  match mapGet r1 uid with
  | some l => mapSet r1 uid (l ++ [ws])
  | none => r1

/-- The `close` handler: `if (ws.userId) { … filter socket !== ws …;
set if nonempty, else delete }`. `wsUserId` is the `ws.userId` field
(`undefined` before the handshake). -/
def closeHandler (r : Registry) (wsUserId : Option Nat) (ws : Nat) : Registry :=
  if jsTruthyNat wsUserId then
    match wsUserId with
    | none => r
    | some uid =>
      let userSockets := connectionsFor r uid
      let newUserSockets := userSockets.filter (fun s => s ≠ ws)
      if newUserSockets.length > 0 then mapSet r uid newUserSockets
      else mapDelete r uid
  else r

/-- Registering `k` times (the same socket re-sending the auth handshake),
starting from the empty registry. -/
def authTimes (uid ws : Nat) : Nat → Registry
  | 0 => []
  | k + 1 => authHandler (authTimes uid ws k) uid ws

/-! ## ChatKey scheme

JS strings as lists of UTF-16 code units. `"group_"` is
`[103,114,111,117,112,95]`, `'_'` is `95`. -/

/-- A JS string: its list of UTF-16 code units. -/
abbrev JStr := List Nat

/-- The code unit of the underscore separator. -/
def usCode : Nat := 95

/-- The code units of the string "group_". -/
def groupTag : JStr := [103, 114, 111, 117, 112, 95]

/-- `s.startsWith(pat)`. -/
def jsStartsWith (pat s : JStr) : Bool :=
  match pat, s with
  | [], _ => true
  | _ :: _, [] => false
  | p :: ps, c :: cs => p = c && jsStartsWith ps cs

/-- `s.replace(pat, '')` for a string pattern: remove the first occurrence
of `pat`, if any. -/
def replaceFirst (pat : JStr) : JStr → JStr
  | [] => []
  | c :: cs =>
    if jsStartsWith pat (c :: cs) then List.drop pat.length (c :: cs)
    else c :: replaceFirst pat cs

/-- `s.split('_')` (JS semantics: `"".split('_') = [""]`,
`"_".split('_') = ["", ""]`). -/
def splitUnderscore : JStr → List JStr
  | [] => [[]]
  | c :: cs =>
    match splitUnderscore cs with
    | [] => if c = usCode then [[], []] else [[c]]
    | h :: t => if c = usCode then [] :: h :: t else (c :: h) :: t

/-- The code unit is an ASCII decimal digit. -/
def isDigitCode (c : Nat) : Bool :=
  decide (48 ≤ c) && decide (c ≤ 57)

/-- Value of a digit string (most significant first). -/
def charsVal (l : JStr) : Nat :=
  l.foldl (fun a c => 10 * a + (c - 48)) 0

/-- JS `parseInt(s, 10)` restricted to the inputs this program feeds it
(no sign, no leading whitespace): parse the longest digit-code prefix of
the string; `NaN` (no digits at all) is `none`. -/
def parseIntJS (s : JStr) : Option Nat :=
  let ds := s.takeWhile isDigitCode
  if ds.isEmpty then none else some (charsVal ds)

/-- Decimal representation of a `Nat` as code units (what
`String(n)` / template interpolation produces for a non-negative int). -/
def natChars (n : Nat) : JStr :=
  if h : n < 10 then [48 + n]
  else natChars (n / 10) ++ [48 + n % 10]
termination_by n
decreasing_by exact Nat.div_lt_self (by omega) (by omega)

/-- Group ChatKey construction: `"group_" + groupId`. -/
def groupKey (g : Nat) : JStr := groupTag ++ natChars g

/-- Direct ChatKey construction: the two identities joined by an
underscore, in the caller-supplied order. -/
def directKey (a b : Nat) : JStr := natChars a ++ usCode :: natChars b

/-- Group-side decoding as the message route does it:
`parseInt(chatId.replace('group_', ''))` behind the
`chatId.startsWith('group_')` test. -/
def decodeGroupKey (s : JStr) : Option Nat :=
  if jsStartsWith groupTag s then parseIntJS (replaceFirst groupTag s) else none

/-- Direct-side decoding as the message route does it: reject group-form
keys, split on the underscore, and require exactly two parts; each part
goes through `parseInt` (`none` = NaN, not rejected by the code). -/
def decodeDirectKey (s : JStr) : Option (Option Nat × Option Nat) :=
  if jsStartsWith groupTag s then none
  else
    let parts := splitUnderscore s
    if parts.length = 2 then
      some (parseIntJS (parts.getD 0 []), parseIntJS (parts.getD 1 []))
    else none

/-! ## The `POST /api/messages` routing branch -/

/-- What the routing section of the handler decides to do with a chatId:
the group branch (with the parsed group id, NaN = `none`), the direct
branch (`sendToUser` to the two parsed ids — NaN = `none` — followed by
conversation bookkeeping), or nothing at all (split did not yield exactly
two parts). -/
inductive RouteAction where
  | group : Option Nat → RouteAction
  | direct : Option Nat → Option Nat → RouteAction
  | skipRoute : RouteAction
deriving DecidableEq

/-- The routing decision of `POST /api/messages` on a chatId. -/
def routeAction (chatId : JStr) : RouteAction :=
  if jsStartsWith groupTag chatId then
    RouteAction.group (parseIntJS (replaceFirst groupTag chatId))
  else
    let parts := splitUnderscore chatId
    if parts.length = 2 then
      RouteAction.direct (parseIntJS (parts.getD 0 []))
        (parseIntJS (parts.getD 1 []))
    else RouteAction.skipRoute

/-- Observable outcome of one `POST /api/messages` request: the HTTP
status sent, whether the message is in the store when the response goes
out, and which routing action was attempted (`none`: routing never ran). -/
structure PostResult where
  statusCode : Nat
  persisted : Bool
  attempted : Option RouteAction
deriving DecidableEq

/-- The `POST /api/messages` handler shape: one `try`/`catch` around
`await storage.createMessage(...)` (the `persist` oracle — a rejected
promise is `Except.error`), then the routing branch (the `deliver` oracle
stands for the awaited group/direct delivery and conversation
bookkeeping; the skip branch runs no fallible code), then
`res.status(201)`. Any rejection lands in the `catch`, which answers 500
and rolls nothing back. -/
def postMessages (persist : Except Unit Nat) (chatId : JStr)
    (deliver : RouteAction → Except Unit Unit) : PostResult :=
  match persist with
  | Except.error _ => { statusCode := 500, persisted := false, attempted := none }
  | Except.ok _ =>
    let act := routeAction chatId
    let dres : Except Unit Unit :=
      match act with
      | RouteAction.skipRoute => Except.ok ()
      | a => deliver a
    match dres with
    | Except.error _ => { statusCode := 500, persisted := true, attempted := some act }
    | Except.ok _ => { statusCode := 201, persisted := true, attempted := some act }

/-! ## Storage: messages, statuses, cleanup tasks -/

/-- A stored chat message (`messages` table / `MemStorage`). -/
structure Message where
  id : Nat
  senderId : Nat
  chatId : JStr
  content : JStr
  contentType : JStr
  timestamp : Int
  isRead : Bool
  isDeleted : Bool
deriving DecidableEq

/-- `MemStorage.messages`. -/
abbrev MsgStore := List (Nat × Message)

/-- Ten days in milliseconds (`tenDaysAgo.setDate(getDate() - 10)`). -/
def tenDaysMs : Int := 864000000

/-- `MemStorage.deleteMessage(id)`: soft delete — set `isDeleted`,
keep every other field. `false`/no-op when the id is absent. -/
def deleteMessage (store : MsgStore) (id : Nat) : MsgStore :=
  match mapGet store id with
  | none => store
  | some m => mapSet store id { m with isDeleted := true }

/-- The condition of the daily cleanup loop:
`message.timestamp < tenDaysAgo && !message.isDeleted`. -/
def msgEligible (now : Int) (m : Message) : Bool :=
  decide (m.timestamp < now - tenDaysMs) && !m.isDeleted

/-- The body of the daily cleanup interval: iterate the entries snapshot,
soft-deleting each eligible message in the evolving store. -/
def messageCleanupAux (now : Int) : List (Nat × Message) → MsgStore → MsgStore
  | [], store => store
  | p :: rest, store =>
    messageCleanupAux now rest
      (if msgEligible now p.2 then deleteMessage store p.1 else store)

/-- One run of the daily message-retirement task at time `now`. -/
def messageCleanupTick (now : Int) (store : MsgStore) : MsgStore :=
  messageCleanupAux now store store

/-- The daily cleanup loop with a fallible delete (`await
storage.deleteMessage(id)` may reject: `failsOn id`). There is no
`try`/`catch` inside the loop, so the first rejection aborts the rest of
the scan; the Bool records whether the scan completed. -/
def messageCleanupFallible (failsOn : Nat → Bool) (now : Int) :
    List (Nat × Message) → MsgStore → MsgStore × Bool
  | [], store => (store, true)
  | p :: rest, store =>
    if msgEligible now p.2 then
      if failsOn p.1 then (store, false)
      else messageCleanupFallible failsOn now rest (deleteMessage store p.1)
    else messageCleanupFallible failsOn now rest store

/-- A stored status (`statuses` table / `MemStorage`). -/
structure Status where
  id : Nat
  userId : Nat
  content : JStr
  contentType : JStr
  caption : Option JStr
  createdAt : Int
  expiresAt : Option Int
deriving DecidableEq

/-- `InsertStatus` — `insertStatusSchema` omits `id`, `createdAt` and
`expiresAt`, so a caller of `createStatus` cannot supply any of them. -/
structure InsertStatus where
  userId : Nat
  content : JStr
  contentType : JStr
  caption : Option JStr
deriving DecidableEq

/-- `MemStorage.statuses`. -/
abbrev StatusStore := List (Nat × Status)

/-- Three days in milliseconds (`expiresAt.setDate(getDate() + 3)`). -/
def threeDaysMs : Int := 259200000

/-- `MemStorage.createStatus`: allocate the next id, stamp `createdAt`
with now, stamp `expiresAt` with now + 3 days (overriding anything in
the input — the spread puts the computed field last), store, return the
created status. -/
def createStatus (store : StatusStore) (nextId : Nat) (data : InsertStatus)
    (now : Int) : StatusStore × Status :=
  let status : Status :=
    { id := nextId, userId := data.userId, content := data.content,
      contentType := data.contentType, caption := data.caption,
      createdAt := now, expiresAt := some (now + threeDaysMs) }
  (mapSet store nextId status, status)

/-- `MemStorage.deleteStatus(id)`: hard delete from the map. -/
def deleteStatus (store : StatusStore) (id : Nat) : StatusStore :=
  mapDelete store id

/-- The condition of the hourly cleanup loop:
`status.expiresAt && status.expiresAt < now` (`null` is falsy). -/
def statusExpired (now : Int) (s : Status) : Bool :=
  match s.expiresAt with
  | none => false
  | some e => decide (e < now)

/-- The body of the hourly cleanup interval. -/
def statusCleanupAux (now : Int) : List (Nat × Status) → StatusStore → StatusStore
  | [], store => store
  | p :: rest, store =>
    statusCleanupAux now rest
      (if statusExpired now p.2 then deleteStatus store p.1 else store)

/-- One run of the hourly status-retirement task at time `now`. -/
def statusCleanupTick (now : Int) (store : StatusStore) : StatusStore :=
  statusCleanupAux now store store

/-- The filter of `MemStorage.getActiveStatuses`:
`status.expiresAt === null || status.expiresAt > now`. -/
def isActiveAt (now : Int) (s : Status) : Bool :=
  match s.expiresAt with
  | none => true
  | some e => decide (now < e)

/-- `MemStorage.getActiveStatuses` at time `now`: filter the live
statuses, newest `createdAt` first. -/
def getActiveStatuses (now : Int) (store : StatusStore) : List Status :=
  ((store.map (fun p => p.2)).filter (isActiveAt now)).mergeSort
    (fun a b => decide (b.createdAt ≤ a.createdAt))

/-- The storage operations that touch the `statuses` map. -/
inductive StatusOp where
  | create : InsertStatus → Int → StatusOp
  | del : Nat → StatusOp
  | cleanup : Int → StatusOp

/-- Apply one status operation to the (store, next-id) state. -/
def applyStatusOp : StatusStore × Nat → StatusOp → StatusStore × Nat
  | (store, nid), StatusOp.create data now => ((createStatus store nid data now).1, nid + 1)
  | (store, nid), StatusOp.del i => (deleteStatus store i, nid)
  | (store, nid), StatusOp.cleanup now => (statusCleanupTick now store, nid)

/-- Apply a sequence of status operations. -/
def applyStatusOps (ops : List StatusOp) (st : StatusStore × Nat) :
    StatusStore × Nat :=
  ops.foldl applyStatusOp st

/-- Invariant of `MemStorage`'s statuses map: keys are unique and all
below the id counter (ids are allocated from the monotonically
increasing counter, which starts at 1). -/
def StatusInv (store : StatusStore) (nid : Nat) : Prop :=
  (store.map Prod.fst).Nodup ∧ ∀ k ∈ store.map Prod.fst, k < nid

instance (store : StatusStore) (nid : Nat) : Decidable (StatusInv store nid) := by
  unfold StatusInv
  infer_instance

/-- Sample messages and store used by the concrete witnesses: message 1
is more than ten days old and live, message 2 is recent. -/
def msgOldSample : Message :=
  { id := 1, senderId := 1, chatId := [], content := [97],
    contentType := [], timestamp := 0, isRead := false, isDeleted := false }

/-- Sample recent message (see `msgOldSample`). -/
def msgNewSample : Message :=
  { id := 2, senderId := 1, chatId := [], content := [98],
    contentType := [], timestamp := 864000000, isRead := false,
    isDeleted := false }

/-- Sample message store for the witnesses. -/
def msgStoreSample : MsgStore := [(1, msgOldSample), (2, msgNewSample)]

/-- Sample status with an already-past expiry, for the witnesses. -/
def statusPastSample : Status :=
  { id := 1, userId := 9, content := [97], contentType := [],
    caption := none, createdAt := 0, expiresAt := some 1000 }

/-- Sample status with a future expiry, for the witnesses. -/
def statusFutureSample : Status :=
  { id := 2, userId := 9, content := [98], contentType := [],
    caption := none, createdAt := 0, expiresAt := some 9000000 }

/-- Sample status store for the witnesses. -/
def statusStoreSample : StatusStore :=
  [(1, statusPastSample), (2, statusFutureSample)]

/-- Sample status-creation payload for the witnesses. -/
def insertStatusSample : InsertStatus :=
  { userId := 9, content := [99], contentType := [], caption := none }

/-! ### Map lemmas -/

theorem mapGet_nil {α : Type} (k : Nat) : mapGet ([] : List (Nat × α)) k = none := rfl

theorem mapGet_cons {α : Type} (p : Nat × α) (t : List (Nat × α)) (k : Nat) :
    mapGet (p :: t) k = if p.1 = k then some p.2 else mapGet t k := by
  unfold mapGet
  by_cases h : p.1 = k
  · rw [List.find?_cons_of_pos _ (by simpa using h), if_pos h]; rfl
  · rw [List.find?_cons_of_neg _ (by simpa using h), if_neg h]

theorem mapHas_cons {α : Type} (p : Nat × α) (t : List (Nat × α)) (k : Nat) :
    mapHas (p :: t) k = (decide (p.1 = k) || mapHas t k) := by
  simp [mapHas]

theorem mapHas_eq_isSome {α : Type} (m : List (Nat × α)) (k : Nat) :
    mapHas m k = (mapGet m k).isSome := by
  induction m with
  | nil => rfl
  | cons p t ih =>
    rw [mapHas_cons, mapGet_cons]
    by_cases h : p.1 = k
    · simp [h]
    · simp [h, ih]

theorem mapGet_setMap_self {α : Type} (m : List (Nat × α)) (k : Nat) (v : α)
    (h : mapHas m k = true) :
    mapGet (m.map (fun p => if p.1 = k then (k, v) else p)) k = some v := by
  induction m with
  | nil => simp [mapHas] at h
  | cons p t ih =>
    rw [mapHas_cons] at h
    by_cases hp : p.1 = k
    · simp [List.map_cons, if_pos hp, mapGet_cons]
    · simp only [List.map_cons, if_neg hp, mapGet_cons, if_neg hp]
      exact ih (by simpa [hp] using h)

theorem mapGet_append_self {α : Type} (m : List (Nat × α)) (k : Nat) (v : α)
    (h : mapHas m k = false) :
    mapGet (m ++ [(k, v)]) k = some v := by
  induction m with
  | nil => simp [mapGet_cons]
  | cons p t ih =>
    rw [mapHas_cons] at h
    have hp : p.1 ≠ k := by
      intro e; simp [e] at h
    rw [List.cons_append, mapGet_cons, if_neg hp]
    exact ih (by simpa [hp] using h)

theorem mapGet_mapSet_self {α : Type} (m : List (Nat × α)) (k : Nat) (v : α) :
    mapGet (mapSet m k v) k = some v := by
  unfold mapSet
  by_cases h : mapHas m k
  · rw [if_pos h]; exact mapGet_setMap_self m k v h
  · rw [if_neg h]
    exact mapGet_append_self m k v (by simpa using h)

theorem mapGet_setMap_ne {α : Type} (m : List (Nat × α)) (k k' : Nat) (v : α)
    (h : k' ≠ k) :
    mapGet (m.map (fun p => if p.1 = k then (k, v) else p)) k' = mapGet m k' := by
  have hkk : k ≠ k' := fun e => h e.symm
  induction m with
  | nil => rfl
  | cons p t ih =>
    by_cases hp : p.1 = k
    · have hp' : p.1 ≠ k' := by rw [hp]; exact hkk
      rw [List.map_cons, if_pos hp, mapGet_cons, mapGet_cons, if_neg hkk, if_neg hp']
      exact ih
    · rw [List.map_cons, if_neg hp, mapGet_cons, mapGet_cons]
      by_cases hk' : p.1 = k'
      · rw [if_pos hk', if_pos hk']
      · rw [if_neg hk', if_neg hk']
        exact ih

theorem mapGet_append_ne {α : Type} (m : List (Nat × α)) (k k' : Nat) (v : α)
    (h : k' ≠ k) : mapGet (m ++ [(k, v)]) k' = mapGet m k' := by
  have hkk : k ≠ k' := fun e => h e.symm
  induction m with
  | nil => simp [mapGet_cons, mapGet_nil, if_neg hkk]
  | cons p t ih =>
    rw [List.cons_append, mapGet_cons, mapGet_cons]
    by_cases hk' : p.1 = k'
    · rw [if_pos hk', if_pos hk']
    · rw [if_neg hk', if_neg hk']
      exact ih

theorem mapGet_mapSet_ne {α : Type} (m : List (Nat × α)) (k k' : Nat) (v : α)
    (h : k' ≠ k) : mapGet (mapSet m k v) k' = mapGet m k' := by
  unfold mapSet
  by_cases hh : mapHas m k
  · rw [if_pos hh]; exact mapGet_setMap_ne m k k' v h
  · rw [if_neg hh]; exact mapGet_append_ne m k k' v h

theorem mapGet_mapDelete_self {α : Type} (m : List (Nat × α)) (k : Nat) :
    mapGet (mapDelete m k) k = none := by
  induction m with
  | nil => rfl
  | cons p t ih =>
    unfold mapDelete at ih ⊢
    rw [List.filter_cons]
    by_cases hp : p.1 = k
    · rw [if_neg (by simp [hp])]
      exact ih
    · rw [if_pos (by simp [hp]), mapGet_cons, if_neg hp]
      exact ih

theorem mapGet_mapDelete_ne {α : Type} (m : List (Nat × α)) (k k' : Nat)
    (h : k' ≠ k) : mapGet (mapDelete m k) k' = mapGet m k' := by
  induction m with
  | nil => rfl
  | cons p t ih =>
    unfold mapDelete at ih ⊢
    rw [List.filter_cons]
    by_cases hp : p.1 = k
    · have hp' : p.1 ≠ k' := by rw [hp]; exact fun e => h e.symm
      rw [if_neg (by simp [hp]), mapGet_cons, if_neg hp']
      exact ih
    · rw [if_pos (by simp [hp]), mapGet_cons, mapGet_cons]
      by_cases hk' : p.1 = k'
      · rw [if_pos hk', if_pos hk']
      · rw [if_neg hk', if_neg hk']
        exact ih

/-! ### Registry lemmas -/

theorem connectionsFor_authHandler (r : Registry) (uid ws : Nat) :
    connectionsFor (authHandler r uid ws) uid = connectionsFor r uid ++ [ws] := by
  unfold authHandler
  by_cases h : mapHas r uid
  · rw [if_neg (by simp [h])]
    have hh := h
    rw [mapHas_eq_isSome] at hh
    match hg : mapGet r uid with
    | some l =>
      simp only [hg, connectionsFor, mapGet_mapSet_self, Option.getD_some]
    | none => rw [hg] at hh; simp at hh
  · have h' : mapHas r uid = false := by simpa using h
    rw [if_pos (by simp [h'])]
    have hh := h'
    rw [mapHas_eq_isSome] at hh
    match hg : mapGet r uid with
    | some l => rw [hg] at hh; simp at hh
    | none =>
      have hset : mapGet (mapSet r uid ([] : List Nat)) uid = some [] :=
        mapGet_mapSet_self r uid []
      simp only [hset, connectionsFor, mapGet_mapSet_self, Option.getD_some, hg,
        Option.getD_none, List.nil_append]

theorem connectionsFor_authTimes (uid ws : Nat) (k : Nat) :
    connectionsFor (authTimes uid ws k) uid = List.replicate k ws := by
  induction k with
  | zero => rfl
  | succ n ih =>
    rw [authTimes, connectionsFor_authHandler, ih,
      List.replicate_succ' (n := n)]

/-! ### Registry claims -/

/-- Helper: the close handler for a connection tagged with a nonzero
identity, unfolded. -/
theorem closeHandler_some (r : Registry) (uid ws : Nat) (huid : uid ≠ 0) :
    closeHandler r (some uid) ws =
      (if ((connectionsFor r uid).filter (fun s => s ≠ ws)).length > 0
       then mapSet r uid ((connectionsFor r uid).filter (fun s => s ≠ ws))
       else mapDelete r uid) := by
  unfold closeHandler
  rw [if_pos (by simp [jsTruthyNat, huid])]

/-- C1: for every identity and environment of transport states,
`sendToUser` sends the serialized payload to exactly those of the
identity's registered connections that are in the open state, and to no
other connection; connections not open are merely skipped (the function
is total and only filters — nothing errors, nothing is queued). -/
theorem C1_sendToUser_exactly_open (env : Nat → Nat) (r : Registry) (uid : Nat) :
    ∀ c, c ∈ sendToUser env r uid ↔ c ∈ connectionsFor r uid ∧ env c = wsOPEN := by
  intro c
  simp [sendToUser, List.mem_filter]

/-- C2 fails as stated on the code: the close handler guards on the JS
truthiness of `ws.userId`, so a connection tagged with identity `0` is
never removed. Concretely, socket `7` authenticates as identity `0` and
its transport then closes, yet it is still in identity `0`'s registry
list and `connectionsFor` is not zero-length. -/
theorem C2_counterexample :
    connectionsFor (closeHandler (authHandler [] 0 7) (some 0) 7) 0 = [7] := by
  rfl

/-- C2 (amended): for every connection tagged with a NONZERO identity,
after the close handler runs that connection is no longer in its
identity's registry list; if it was the last connection for its identity
(every registered occurrence is that socket), the identity's entry is
removed entirely (`mapGet` is `none`, `connectionsFor` is zero-length);
and a closed connection never receives subsequent deliveries from any
registry state. -/
theorem C2_unregister_amended (r : Registry) (uid ws : Nat) (env : Nat → Nat)
    (r' : Registry) (uid' : Nat)
    (huid : uid ≠ 0) (henv : env ws ≠ wsOPEN) :
    ws ∉ connectionsFor (closeHandler r (some uid) ws) uid ∧
    ((connectionsFor r uid).all (fun s => s = ws) = true →
      mapGet (closeHandler r (some uid) ws) uid = none ∧
      connectionsFor (closeHandler r (some uid) ws) uid = []) ∧
    ws ∉ sendToUser env r' uid' := by
  rw [closeHandler_some r uid ws huid]
  by_cases hl : ((connectionsFor r uid).filter (fun s => s ≠ ws)).length > 0
  · rw [if_pos hl]
    refine ⟨?_, ?_, ?_⟩
    · intro hmem
      rw [connectionsFor, mapGet_mapSet_self, Option.getD_some] at hmem
      rcases List.mem_filter.mp hmem with ⟨-, hne⟩
      simp at hne
    · intro hall
      have hnil : (connectionsFor r uid).filter (fun s => s ≠ ws) = [] := by
        rw [List.filter_eq_nil_iff]
        intro a ha
        have := List.all_eq_true.mp hall a ha
        simpa using this
      rw [hnil] at hl
      simp at hl
    · intro hmem
      rcases List.mem_filter.mp hmem with ⟨-, hopen⟩
      exact henv (by simpa using hopen)
  · rw [if_neg hl]
    refine ⟨?_, ?_, ?_⟩
    · intro hmem
      rw [connectionsFor, mapGet_mapDelete_self, Option.getD_none] at hmem
      exact List.not_mem_nil ws hmem
    · intro _
      exact ⟨mapGet_mapDelete_self r uid,
        by rw [connectionsFor, mapGet_mapDelete_self, Option.getD_none]⟩
    · intro hmem
      rcases List.mem_filter.mp hmem with ⟨-, hopen⟩
      exact henv (by simpa using hopen)

/-- Witness for the amended C2, at a concrete registry: identity 5,
socket 7 registered twice, transport state closed (3). -/
theorem C2_unregister_amended_witness :
    (5 : Nat) ≠ 0 ∧ (fun _ : Nat => 3) 7 ≠ wsOPEN ∧
    (7 ∉ connectionsFor (closeHandler (authTimes 5 7 2) (some 5) 7) 5 ∧
    ((connectionsFor (authTimes 5 7 2) 5).all (fun s => s = 7) = true →
      mapGet (closeHandler (authTimes 5 7 2) (some 5) 7) 5 = none ∧
      connectionsFor (closeHandler (authTimes 5 7 2) (some 5) 7) 5 = []) ∧
    7 ∉ sendToUser (fun _ : Nat => 3) (authTimes 5 7 2) 5) :=
  ⟨by decide, by decide,
    C2_unregister_amended (authTimes 5 7 2) 5 7 (fun _ : Nat => 3)
      (authTimes 5 7 2) 5 (by decide) (by decide)⟩

/-! ### ChatKey lemmas -/

theorem charsVal_append (l : JStr) (c : Nat) :
    charsVal (l ++ [c]) = 10 * charsVal l + (c - 48) := by
  simp [charsVal, List.foldl_append]

theorem natChars_val (n : Nat) : charsVal (natChars n) = n := by
  induction n using Nat.strong_induction_on with
  | _ n ih =>
    by_cases h : n < 10
    · unfold natChars
      rw [dif_pos h]
      simp [charsVal]
    · unfold natChars
      rw [dif_neg h, charsVal_append,
        ih (n / 10) (Nat.div_lt_self (by omega) (by omega))]
      omega

theorem natChars_digits (n : Nat) : ∀ c ∈ natChars n, isDigitCode c = true := by
  induction n using Nat.strong_induction_on with
  | _ n ih =>
    intro c hc
    by_cases h : n < 10
    · unfold natChars at hc
      rw [dif_pos h] at hc
      rcases List.mem_singleton.mp hc with rfl
      unfold isDigitCode
      simp
      omega
    · unfold natChars at hc
      rw [dif_neg h] at hc
      rcases List.mem_append.mp hc with h1 | h2
      · exact ih (n / 10) (Nat.div_lt_self (by omega) (by omega)) c h1
      · rcases List.mem_singleton.mp h2 with rfl
        unfold isDigitCode
        simp
        have := Nat.mod_lt n (show 0 < 10 by decide)
        omega

theorem natChars_ne_nil (n : Nat) : natChars n ≠ [] := by
  by_cases h : n < 10
  · unfold natChars; rw [dif_pos h]; simp
  · unfold natChars; rw [dif_neg h]; simp

theorem natChars_no_us (n : Nat) : ∀ c ∈ natChars n, c ≠ usCode := by
  intro c hc
  have hd := natChars_digits n c hc
  unfold isDigitCode at hd
  simp at hd
  unfold usCode
  omega

theorem jsStartsWith_append (p r : JStr) : jsStartsWith p (p ++ r) = true := by
  induction p with
  | nil => rfl
  | cons c cs ih => simp [jsStartsWith, ih]

theorem replaceFirst_of_startsWith (pat s : JStr) (h : jsStartsWith pat s = true) :
    replaceFirst pat s = List.drop pat.length s := by
  cases s with
  | nil =>
    cases pat with
    | nil => rfl
    | cons p ps => simp [jsStartsWith] at h
  | cons c cs =>
    unfold replaceFirst
    rw [if_pos h]

theorem parseIntJS_natChars (n : Nat) : parseIntJS (natChars n) = some n := by
  unfold parseIntJS
  rw [List.takeWhile_eq_self_iff.mpr (natChars_digits n)]
  rw [if_neg (by simp [natChars_ne_nil n])]
  rw [natChars_val]

theorem splitUnderscore_cons (c : Nat) (cs : JStr) :
    splitUnderscore (c :: cs) =
      match splitUnderscore cs with
      | [] => if c = usCode then [[], []] else [[c]]
      | h :: t => if c = usCode then [] :: h :: t else (c :: h) :: t := rfl

theorem splitUnderscore_ne_nil (l : JStr) : splitUnderscore l ≠ [] := by
  cases l with
  | nil => simp [splitUnderscore]
  | cons c cs =>
    rw [splitUnderscore_cons]
    cases hcs : splitUnderscore cs with
    | nil => by_cases h : c = usCode <;> simp [h]
    | cons x t => by_cases h : c = usCode <;> simp [h]

theorem splitUnderscore_no_us (l : JStr) (h : ∀ c ∈ l, c ≠ usCode) :
    splitUnderscore l = [l] := by
  induction l with
  | nil => rfl
  | cons c cs ih =>
    have hcs := ih (fun x hx => h x (List.mem_cons_of_mem c hx))
    rw [splitUnderscore_cons, hcs]
    simp [h c (List.mem_cons_self c cs)]

theorem splitUnderscore_append (a b : JStr) (ha : ∀ c ∈ a, c ≠ usCode) :
    splitUnderscore (a ++ usCode :: b) = a :: splitUnderscore b := by
  induction a with
  | nil =>
    show splitUnderscore (usCode :: b) = [] :: splitUnderscore b
    rw [splitUnderscore_cons]
    cases hb : splitUnderscore b with
    | nil => exact absurd hb (splitUnderscore_ne_nil b)
    | cons h t => simp
  | cons c cs ih =>
    have h1 : c ≠ usCode := ha c (List.mem_cons_self c cs)
    have ih' := ih (fun x hx => ha x (List.mem_cons_of_mem c hx))
    show splitUnderscore (c :: (cs ++ usCode :: b)) = (c :: cs) :: splitUnderscore b
    rw [splitUnderscore_cons, ih']
    simp [h1]

theorem jsStartsWith_groupTag_directKey (a b : Nat) :
    jsStartsWith groupTag (directKey a b) = false := by
  match hn : natChars a with
  | [] => exact absurd hn (natChars_ne_nil a)
  | c :: t =>
    have hdig : isDigitCode c = true :=
      natChars_digits a c (by rw [hn]; exact List.mem_cons_self c t)
    have hne : (103 : Nat) ≠ c := by
      unfold isDigitCode at hdig
      simp at hdig
      omega
    show jsStartsWith groupTag (natChars a ++ usCode :: natChars b) = false
    rw [hn]
    simp [jsStartsWith, groupTag, hne]

/-! ### ChatKey claims -/

/-- C4: the ChatKey scheme round-trips. Decoding the group key
`"group_" + groupId` through the route's own decoder
(`startsWith` test, `replace('group_','')`, `parseInt`) yields the
groupId back; decoding the direct key built by joining two identities
with an underscore in the caller-supplied order yields exactly that
ordered pair back (order-preserving: the first identity of the key is
the first component of the result). -/
theorem C4_chatKey_roundtrip (g a b : Nat) :
    decodeGroupKey (groupKey g) = some g ∧
    decodeDirectKey (directKey a b) = some (some a, some b) := by
  constructor
  · unfold decodeGroupKey groupKey
    rw [if_pos (jsStartsWith_append groupTag (natChars g))]
    rw [replaceFirst_of_startsWith _ _ (jsStartsWith_append groupTag (natChars g))]
    rw [List.drop_left]
    exact parseIntJS_natChars g
  · unfold decodeDirectKey
    rw [if_neg (by simp [jsStartsWith_groupTag_directKey a b])]
    have hsplit : splitUnderscore (directKey a b) = [natChars a, natChars b] := by
      unfold directKey
      rw [splitUnderscore_append _ _ (natChars_no_us a),
        splitUnderscore_no_us _ (natChars_no_us b)]
    simp only [hsplit, List.length_cons, List.length_nil, List.getD, if_pos rfl]
    simp [List.getD, parseIntJS_natChars]

/-- C3 fails as stated on the code: the direct-message branch only checks
that the split yields exactly two segments, never that they parse as
integers. The ChatKey "a_b" (`[97, 95, 98]`) splits into two segments
that are NOT integer-parseable (`parseInt` is NaN on both), yet routing
is not skipped: the handler takes the direct branch with NaN identities
— `sendToUser(NaN, …)` runs and the conversation bookkeeping runs — as
its `attempted` action shows. -/
theorem C3_counterexample :
    splitUnderscore [97, 95, 98] = [[97], [98]] ∧
    parseIntJS [97] = none ∧
    parseIntJS [98] = none ∧
    routeAction [97, 95, 98] = RouteAction.direct none none ∧
    (postMessages (Except.ok 1) [97, 95, 98] (fun _ => Except.ok ())).attempted =
      some (RouteAction.direct none none) := by
  refine ⟨rfl, rfl, rfl, rfl, rfl⟩

/-- C3 (amended): routing for a non-group ChatKey is skipped silently
exactly when the underscore split does not yield exactly two segments
(integer-parseability of the segments is NOT checked); in the skipped
case the message is still persisted and the caller still gets the 201
created-message acknowledgment, with no push delivery and no
conversation bookkeeping and no error. -/
theorem C3_malformed_skip_amended (chatId : JStr) (n : Nat)
    (deliver : RouteAction → Except Unit Unit)
    (hg : jsStartsWith groupTag chatId = false)
    (hl : (splitUnderscore chatId).length ≠ 2) :
    routeAction chatId = RouteAction.skipRoute ∧
    postMessages (Except.ok n) chatId deliver =
      { statusCode := 201, persisted := true,
        attempted := some RouteAction.skipRoute } := by
  have hact : routeAction chatId = RouteAction.skipRoute := by
    unfold routeAction
    rw [if_neg (by simp [hg])]
    simp only [if_neg hl]
  refine ⟨hact, ?_⟩
  unfold postMessages
  simp only [hact]

/-- Witness for the amended C3 at the one-segment ChatKey "a". -/
theorem C3_malformed_skip_amended_witness :
    jsStartsWith groupTag [97] = false ∧
    (splitUnderscore [97]).length ≠ 2 ∧
    (routeAction [97] = RouteAction.skipRoute ∧
    postMessages (Except.ok 1) [97] (fun _ => Except.ok ()) =
      { statusCode := 201, persisted := true,
        attempted := some RouteAction.skipRoute }) :=
  ⟨by decide, by decide,
    C3_malformed_skip_amended [97] 1 (fun _ => Except.ok ())
      (by decide) (by decide)⟩

/-- C5 fails as stated on the code: routing is awaited inside the same
`try`/`catch` before the 201 response is sent, so a delivery failure
reaches the `catch` and the caller gets a 500 — not the created-message
acknowledgment — even though the message stays persisted. Concretely,
for the direct ChatKey "1_2" with a rejecting delivery, the outcome is
status 500 with the message persisted and routing attempted. -/
theorem C5_counterexample :
    postMessages (Except.ok 1) [49, 95, 50] (fun _ => Except.error ()) =
      { statusCode := 500, persisted := true,
        attempted := some (RouteAction.direct (some 1) (some 2)) } := by
  rfl

/-- C5 (amended): the persistence write completes before any delivery is
attempted — if persistence fails, the caller gets the failure and routing
is never attempted — and a delivery failure never rolls back the
persisted message; but the response is 201 only when the routing branch
(or the skip branch, which cannot fail) succeeds: on a delivery failure
the caller receives a 500 error response instead of the created-message
acknowledgment, because delivery is awaited inside the handler's
`try`/`catch`, not fire-and-forget. -/
theorem C5_write_then_notify_amended (e : Unit) (n : Nat) (chatId : JStr)
    (deliver : RouteAction → Except Unit Unit) :
    postMessages (Except.error e) chatId deliver =
      { statusCode := 500, persisted := false, attempted := none } ∧
    postMessages (Except.ok n) chatId deliver =
      { statusCode :=
          match (match routeAction chatId with
                 | RouteAction.skipRoute => Except.ok ()
                 | a => deliver a) with
          | Except.ok _ => 201
          | Except.error _ => 500,
        persisted := true,
        attempted := some (routeAction chatId) } := by
  refine ⟨rfl, ?_⟩
  cases hd : (match routeAction chatId with
      | RouteAction.skipRoute => Except.ok ()
      | a => deliver a) with
  | error u =>
    simp only [postMessages]
    rw [hd]
  | ok u =>
    simp only [postMessages]
    rw [hd]

/-- C10: the registry does not deduplicate registrations. A socket that
sends the auth handshake `k` times for the same (nonzero) identity is
pushed `k` times: the identity's list is `k` copies of the socket, a
subsequent `sendToUser` to that identity sends the payload `k` times
over that one open connection (one send per occurrence), and the close
handler removes all `k` occurrences together (the entry disappears). -/
theorem C10_no_dedup (uid ws k : Nat) (env : Nat → Nat)
    (huid : uid ≠ 0) (henv : env ws = wsOPEN) :
    connectionsFor (authTimes uid ws k) uid = List.replicate k ws ∧
    (sendToUser env (authTimes uid ws k) uid).count ws = k ∧
    mapGet (closeHandler (authTimes uid ws k) (some uid) ws) uid = none ∧
    connectionsFor (closeHandler (authTimes uid ws k) (some uid) ws) uid = [] := by
  have h1 := connectionsFor_authTimes uid ws k
  have hf : (List.replicate k ws).filter (fun s => s ≠ ws) = [] := by
    rw [List.filter_eq_nil_iff]
    intro a ha
    rw [List.eq_of_mem_replicate ha]
    simp
  have hdel : closeHandler (authTimes uid ws k) (some uid) ws
      = mapDelete (authTimes uid ws k) uid := by
    rw [closeHandler_some _ _ _ huid, h1, hf]
    simp
  refine ⟨h1, ?_, ?_, ?_⟩
  · unfold sendToUser
    rw [h1]
    have hkeep : (List.replicate k ws).filter (fun s => env s = wsOPEN)
        = List.replicate k ws := by
      rw [List.filter_eq_self]
      intro a ha
      rw [List.eq_of_mem_replicate ha]
      simp [henv]
    rw [hkeep, List.count_replicate_self]
  · rw [hdel]
    exact mapGet_mapDelete_self _ _
  · rw [connectionsFor, hdel, mapGet_mapDelete_self]
    rfl

/-- Witness for C10: identity 5, socket 7 registered three times, all
transports open. -/
theorem C10_no_dedup_witness :
    (5 : Nat) ≠ 0 ∧ (fun _ : Nat => wsOPEN) 7 = wsOPEN ∧
    (connectionsFor (authTimes 5 7 3) 5 = List.replicate 3 7 ∧
     (sendToUser (fun _ : Nat => wsOPEN) (authTimes 5 7 3) 5).count 7 = 3 ∧
     mapGet (closeHandler (authTimes 5 7 3) (some 5) 7) 5 = none ∧
     connectionsFor (closeHandler (authTimes 5 7 3) (some 5) 7) 5 = []) :=
  ⟨by decide, rfl, C10_no_dedup 5 7 3 (fun _ : Nat => wsOPEN) (by decide) rfl⟩

/-! ### Cleanup lemmas: messages -/

theorem mapGet_of_mem_nodup {α : Type} (m : List (Nat × α)) (k : Nat) (v : α)
    (hnd : (m.map Prod.fst).Nodup) (hmem : (k, v) ∈ m) : mapGet m k = some v := by
  induction m with
  | nil => cases hmem
  | cons p t ih =>
    rw [List.map_cons, List.nodup_cons] at hnd
    rcases List.mem_cons.mp hmem with heq | hrest
    · rw [← heq, mapGet_cons, if_pos rfl]
    · rw [mapGet_cons]
      have hne : p.1 ≠ k := by
        intro e
        exact hnd.1 (e ▸ List.mem_map.mpr ⟨(k, v), hrest, rfl⟩)
      rw [if_neg hne]
      exact ih hnd.2 hrest

theorem mem_of_mapGet_eq_some {α : Type} (m : List (Nat × α)) (k : Nat) (v : α)
    (h : mapGet m k = some v) : (k, v) ∈ m := by
  induction m with
  | nil => cases h
  | cons p t ih =>
    rw [mapGet_cons] at h
    by_cases hp : p.1 = k
    · rw [if_pos hp] at h
      have hv : p.2 = v := Option.some.inj h
      have hp2 : p = (k, v) := by
        obtain ⟨a, b⟩ := p
        cases hp
        cases hv
        rfl
      rw [hp2]
      exact List.mem_cons_self _ _
    · rw [if_neg hp] at h
      exact List.mem_cons_of_mem p (ih h)

theorem mapGet_deleteMessage_ne (store : MsgStore) (k id : Nat) (h : id ≠ k) :
    mapGet (deleteMessage store k) id = mapGet store id := by
  unfold deleteMessage
  match mapGet store k with
  | none => rfl
  | some m => exact mapGet_mapSet_ne store k id _ h

theorem messageCleanupAux_not_mem (now : Int) (entries : List (Nat × Message))
    (store : MsgStore) (id : Nat) (h : ∀ p ∈ entries, p.1 ≠ id) :
    mapGet (messageCleanupAux now entries store) id = mapGet store id := by
  induction entries generalizing store with
  | nil => rfl
  | cons p rest ih =>
    have hstep : mapGet (if msgEligible now p.2 then deleteMessage store p.1 else store) id
        = mapGet store id := by
      by_cases he : msgEligible now p.2
      · rw [if_pos he]
        exact mapGet_deleteMessage_ne store p.1 id
          (Ne.symm (h p (List.mem_cons_self p rest)))
      · rw [if_neg he]
    show mapGet (messageCleanupAux now rest
      (if msgEligible now p.2 then deleteMessage store p.1 else store)) id = mapGet store id
    rw [ih _ (fun q hq => h q (List.mem_cons_of_mem p hq)), hstep]

theorem messageCleanupAux_mem (now : Int) (entries : List (Nat × Message))
    (store : MsgStore) (id : Nat) (m : Message)
    (hnd : (entries.map Prod.fst).Nodup) (hmem : (id, m) ∈ entries)
    (hget : mapGet store id = some m) :
    mapGet (messageCleanupAux now entries store) id =
      some (if msgEligible now m then { m with isDeleted := true } else m) := by
  induction entries generalizing store with
  | nil => cases hmem
  | cons p rest ih =>
    rw [List.map_cons, List.nodup_cons] at hnd
    rcases List.mem_cons.mp hmem with heq | hrest
    · have hp : p = (id, m) := heq.symm
      subst hp
      have hnotin : ∀ q ∈ rest, q.1 ≠ id := by
        intro q hq e
        exact hnd.1 (e ▸ List.mem_map.mpr ⟨q, hq, rfl⟩)
      show mapGet (messageCleanupAux now rest
        (if msgEligible now m then deleteMessage store id else store)) id = _
      rw [messageCleanupAux_not_mem now rest _ id hnotin]
      by_cases he : msgEligible now m
      · rw [if_pos he, if_pos he]
        unfold deleteMessage
        rw [hget]
        exact mapGet_mapSet_self store id _
      · rw [if_neg he, if_neg he]
        exact hget
    · have hpne : p.1 ≠ id := by
        intro e
        exact hnd.1 (e ▸ List.mem_map.mpr ⟨(id, m), hrest, rfl⟩)
      have hget' : mapGet (if msgEligible now p.2 then deleteMessage store p.1 else store) id
          = some m := by
        by_cases he : msgEligible now p.2
        · rw [if_pos he, mapGet_deleteMessage_ne store p.1 id (fun e => hpne e.symm)]
          exact hget
        · rw [if_neg he]
          exact hget
      exact ih _ hnd.2 hrest hget'

/-- C6: after one run of the daily message-retirement task at time `now`,
every stored message strictly older than `now − 10 days` that is not
already soft-deleted has its `isDeleted` flag set to true with every
other field (in particular the content) retained, and every other
message — one within the last 10 days, or one already soft-deleted — is
completely unchanged. `msgEligible` is the loop's own condition
`timestamp < now − 10 days && !isDeleted`. -/
theorem C6_message_retirement (now : Int) (store : MsgStore) (id : Nat) (m : Message)
    (hnd : (store.map Prod.fst).Nodup) (hmem : (id, m) ∈ store) :
    mapGet (messageCleanupTick now store) id =
      some (if msgEligible now m then { m with isDeleted := true } else m) ∧
    ({ m with isDeleted := true } : Message).content = m.content ∧
    ({ m with isDeleted := true } : Message).timestamp = m.timestamp ∧
    (msgEligible now m =
      (decide (m.timestamp < now - tenDaysMs) && !m.isDeleted)) := by
  refine ⟨?_, rfl, rfl, rfl⟩
  exact messageCleanupAux_mem now store store id m hnd hmem
    (mapGet_of_mem_nodup store id m hnd hmem)

/-- Witness for C6: two messages — one 10-days-plus old and live (it
gets soft-deleted with content kept), one recent (unchanged) — at a
concrete store and time. -/
theorem C6_message_retirement_witness :
    (msgStoreSample.map Prod.fst).Nodup ∧
    ((1 : Nat), msgOldSample) ∈ msgStoreSample ∧
    (mapGet (messageCleanupTick 864000001 msgStoreSample) 1 =
      some (if msgEligible 864000001 msgOldSample
            then { msgOldSample with isDeleted := true } else msgOldSample) ∧
    ({ msgOldSample with isDeleted := true } : Message).content
        = msgOldSample.content ∧
    ({ msgOldSample with isDeleted := true } : Message).timestamp
        = msgOldSample.timestamp ∧
    (msgEligible 864000001 msgOldSample =
      (decide (msgOldSample.timestamp < 864000001 - tenDaysMs) &&
        !msgOldSample.isDeleted))) :=
  ⟨by decide, by decide,
    C6_message_retirement 864000001 msgStoreSample 1 msgOldSample
      (by decide) (by decide)⟩

/-! ### Cleanup lemmas: statuses -/

theorem statusCleanupAux_not_mem (now : Int) (entries : List (Nat × Status))
    (store : StatusStore) (id : Nat) (h : ∀ p ∈ entries, p.1 ≠ id) :
    mapGet (statusCleanupAux now entries store) id = mapGet store id := by
  induction entries generalizing store with
  | nil => rfl
  | cons p rest ih =>
    have hstep : mapGet (if statusExpired now p.2 then deleteStatus store p.1 else store) id
        = mapGet store id := by
      by_cases he : statusExpired now p.2
      · rw [if_pos he]
        exact mapGet_mapDelete_ne store p.1 id
          (Ne.symm (h p (List.mem_cons_self p rest)))
      · rw [if_neg he]
    show mapGet (statusCleanupAux now rest
      (if statusExpired now p.2 then deleteStatus store p.1 else store)) id
        = mapGet store id
    rw [ih _ (fun q hq => h q (List.mem_cons_of_mem p hq)), hstep]

theorem statusCleanupAux_mem (now : Int) (entries : List (Nat × Status))
    (store : StatusStore) (id : Nat) (s : Status)
    (hnd : (entries.map Prod.fst).Nodup) (hmem : (id, s) ∈ entries)
    (hget : mapGet store id = some s) :
    mapGet (statusCleanupAux now entries store) id =
      (if statusExpired now s then none else some s) := by
  induction entries generalizing store with
  | nil => cases hmem
  | cons p rest ih =>
    rw [List.map_cons, List.nodup_cons] at hnd
    rcases List.mem_cons.mp hmem with heq | hrest
    · have hp : p = (id, s) := heq.symm
      subst hp
      have hnotin : ∀ q ∈ rest, q.1 ≠ id := by
        intro q hq e
        exact hnd.1 (e ▸ List.mem_map.mpr ⟨q, hq, rfl⟩)
      show mapGet (statusCleanupAux now rest
        (if statusExpired now s then deleteStatus store id else store)) id = _
      rw [statusCleanupAux_not_mem now rest _ id hnotin]
      by_cases he : statusExpired now s
      · rw [if_pos he, if_pos he]
        exact mapGet_mapDelete_self store id
      · rw [if_neg he, if_neg he]
        exact hget
    · have hpne : p.1 ≠ id := by
        intro e
        exact hnd.1 (e ▸ List.mem_map.mpr ⟨(id, s), hrest, rfl⟩)
      have hget' : mapGet (if statusExpired now p.2 then deleteStatus store p.1 else store) id
          = some s := by
        by_cases he : statusExpired now p.2
        · rw [if_pos he]
          unfold deleteStatus
          rw [mapGet_mapDelete_ne store p.1 id (fun e => hpne e.symm)]
          exact hget
        · rw [if_neg he]
          exact hget
      exact ih _ hnd.2 hrest hget'

/-- C7: after one run of the hourly status-retirement task at time `now`,
every stored status whose `expiresAt` is non-null and strictly in the
past is hard-deleted (absent from the store), and every status whose
`expiresAt` is null or not in the past is untouched (same record).
`statusExpired` is the loop's own condition
`status.expiresAt && status.expiresAt < now`. -/
theorem C7_status_retirement (now : Int) (store : StatusStore) (id : Nat) (s : Status)
    (hnd : (store.map Prod.fst).Nodup) (hmem : (id, s) ∈ store) :
    mapGet (statusCleanupTick now store) id =
      (if statusExpired now s then none else some s) ∧
    statusExpired now s =
      (match s.expiresAt with
       | none => false
       | some e => decide (e < now)) := by
  refine ⟨?_, rfl⟩
  exact statusCleanupAux_mem now store store id s hnd hmem
    (mapGet_of_mem_nodup store id s hnd hmem)

/-- Witness for C7: status 1 expired at 1000 (gone after the tick at time
2000), status 2 expires at 9000000 (untouched). -/
theorem C7_status_retirement_witness :
    (statusStoreSample.map Prod.fst).Nodup ∧
    ((1 : Nat), statusPastSample) ∈ statusStoreSample ∧
    (mapGet (statusCleanupTick 2000 statusStoreSample) 1 =
      (if statusExpired 2000 statusPastSample then none else some statusPastSample) ∧
    statusExpired 2000 statusPastSample =
      (match statusPastSample.expiresAt with
       | none => false
       | some e => decide (e < 2000))) :=
  ⟨by decide, by decide,
    C7_status_retirement 2000 statusStoreSample 1 statusPastSample
      (by decide) (by decide)⟩

/-! ### Status-lifecycle lemmas (C8) -/

theorem mapHas_true_mem {α : Type} (m : List (Nat × α)) (k : Nat)
    (h : mapHas m k = true) : k ∈ m.map Prod.fst := by
  rw [mapHas_eq_isSome] at h
  match hg : mapGet m k with
  | some v =>
    exact List.mem_map.mpr ⟨(k, v), mem_of_mapGet_eq_some m k v hg, rfl⟩
  | none => rw [hg] at h; cases h

theorem mapHas_false_of_inv (store : StatusStore) (nid : Nat)
    (hinv : StatusInv store nid) : mapHas store nid = false := by
  by_cases hh : mapHas store nid
  · exact absurd (hinv.2 nid (mapHas_true_mem store nid hh)) (Nat.lt_irrefl nid)
  · simpa using hh

theorem statusInv_sub (store store' : StatusStore) (nid : Nat)
    (hsub : store'.Sublist store) (hinv : StatusInv store nid) :
    StatusInv store' nid :=
  ⟨hinv.1.sublist (hsub.map Prod.fst),
   fun k hk => hinv.2 k ((hsub.map Prod.fst).subset hk)⟩

theorem statusCleanupAux_sublist (now : Int) (entries : List (Nat × Status))
    (store : StatusStore) :
    (statusCleanupAux now entries store).Sublist store := by
  induction entries generalizing store with
  | nil => exact List.Sublist.refl store
  | cons p rest ih =>
    show (statusCleanupAux now rest
      (if statusExpired now p.2 then deleteStatus store p.1 else store)).Sublist store
    by_cases he : statusExpired now p.2
    · rw [if_pos he]
      exact (ih _).trans (List.filter_sublist store)
    · rw [if_neg he]
      exact ih _

theorem statusInv_create (store : StatusStore) (nid : Nat) (data : InsertStatus)
    (now : Int) (hinv : StatusInv store nid) :
    StatusInv (createStatus store nid data now).1 (nid + 1) := by
  have hh := mapHas_false_of_inv store nid hinv
  show StatusInv (mapSet store nid _) (nid + 1)
  unfold mapSet
  rw [if_neg (by simp [hh])]
  constructor
  · rw [List.map_append, List.nodup_append]
    refine ⟨hinv.1, List.nodup_singleton nid, ?_⟩
    intro a ha hb
    rw [List.map_singleton, List.mem_singleton] at hb
    subst hb
    exact absurd (hinv.2 a ha) (Nat.lt_irrefl a)
  · intro k hk
    rw [List.map_append] at hk
    rcases List.mem_append.mp hk with h1 | h2
    · exact Nat.lt_succ_of_lt (hinv.2 k h1)
    · rw [List.map_singleton, List.mem_singleton] at h2
      rw [h2]
      exact Nat.lt_succ_self nid

theorem statusInv_applyOp (st : StatusStore × Nat) (op : StatusOp)
    (hinv : StatusInv st.1 st.2) :
    StatusInv (applyStatusOp st op).1 (applyStatusOp st op).2 ∧
    st.2 ≤ (applyStatusOp st op).2 := by
  obtain ⟨store, nid⟩ := st
  cases op with
  | create data now =>
    exact ⟨statusInv_create store nid data now hinv, Nat.le_succ nid⟩
  | del i =>
    refine ⟨statusInv_sub store _ nid ?_ hinv, Nat.le_refl nid⟩
    exact List.filter_sublist store
  | cleanup now =>
    refine ⟨statusInv_sub store _ nid ?_ hinv, Nat.le_refl nid⟩
    exact statusCleanupAux_sublist now store store

theorem statusOp_get_back (st : StatusStore × Nat) (op : StatusOp)
    (id : Nat) (s' : Status)
    (hinv : StatusInv st.1 st.2) (hid : id < st.2)
    (h : mapGet (applyStatusOp st op).1 id = some s') :
    mapGet st.1 id = some s' := by
  obtain ⟨store, nid⟩ := st
  cases op with
  | create data now =>
    have hne : id ≠ nid := Nat.ne_of_lt hid
    rw [show (applyStatusOp (store, nid) (StatusOp.create data now)).1
        = mapSet store nid (createStatus store nid data now).2 from rfl] at h
    rw [mapGet_mapSet_ne store nid id _ hne] at h
    exact h
  | del i =>
    by_cases hik : id = i
    · subst hik
      rw [show (applyStatusOp (store, nid) (StatusOp.del id)).1
          = mapDelete store id from rfl, mapGet_mapDelete_self] at h
      cases h
    · rw [show (applyStatusOp (store, nid) (StatusOp.del i)).1
          = mapDelete store i from rfl, mapGet_mapDelete_ne store i id hik] at h
      exact h
  | cleanup now =>
    have hmem : (id, s') ∈ statusCleanupAux now store store :=
      mem_of_mapGet_eq_some _ id s' h
    have hmem' : (id, s') ∈ store :=
      (statusCleanupAux_sublist now store store).subset hmem
    exact mapGet_of_mem_nodup store id s' hinv.1 hmem'

theorem applyStatusOps_get_back (ops : List StatusOp) (st : StatusStore × Nat)
    (id : Nat) (s' : Status)
    (hinv : StatusInv st.1 st.2) (hid : id < st.2)
    (h : mapGet (applyStatusOps ops st).1 id = some s') :
    mapGet st.1 id = some s' := by
  induction ops generalizing st with
  | nil => exact h
  | cons op rest ih =>
    have hstep := statusInv_applyOp st op hinv
    have hid' : id < (applyStatusOp st op).2 := Nat.lt_of_lt_of_le hid hstep.2
    exact statusOp_get_back st op id s' hinv hid
      (ih (applyStatusOp st op) hstep.1 hid' h)

/-- C8: a status created at time `T` has `expiresAt = T + 3 days` exactly,
set once at creation (the insert payload has no expiry field to supply —
`insertStatusSchema` omits it and `createStatus` overrides it anyway);
no later storage operation (create, delete, cleanup tick) ever modifies
the stored record — if the created id still resolves after any sequence
of operations, it resolves to the identical record; and querying active
statuses at `T + 3 days − 1 second` includes the status. -/
theorem C8_status_expiry (store : StatusStore) (nid : Nat) (data : InsertStatus)
    (T : Int) (ops : List StatusOp) (s' : Status)
    (hinv : StatusInv store nid) :
    (createStatus store nid data T).2.expiresAt = some (T + threeDaysMs) ∧
    (mapGet (applyStatusOps ops ((createStatus store nid data T).1, nid + 1)).1 nid
        = some s' → s' = (createStatus store nid data T).2) ∧
    (createStatus store nid data T).2
      ∈ getActiveStatuses (T + threeDaysMs - 1000) (createStatus store nid data T).1 := by
  have hh := mapHas_false_of_inv store nid hinv
  refine ⟨rfl, ?_, ?_⟩
  · intro h
    have hinv' : StatusInv (createStatus store nid data T).1 (nid + 1) :=
      statusInv_create store nid data T hinv
    have hback := applyStatusOps_get_back ops ((createStatus store nid data T).1, nid + 1)
      nid s' hinv' (Nat.lt_succ_self nid) h
    rw [show (createStatus store nid data T).1
        = mapSet store nid (createStatus store nid data T).2 from rfl,
      mapGet_mapSet_self] at hback
    exact (Option.some.inj hback).symm
  · have hstore : (createStatus store nid data T).1
        = store ++ [(nid, (createStatus store nid data T).2)] := by
      show mapSet store nid _ = _
      unfold mapSet
      rw [if_neg (by simp [hh])]
      rfl
    unfold getActiveStatuses
    rw [(List.mergeSort_perm _ _).mem_iff]
    apply List.mem_filter.mpr
    constructor
    · rw [hstore, List.map_append]
      exact List.mem_append_right _ (List.mem_singleton.mpr rfl)
    · show isActiveAt (T + threeDaysMs - 1000) (createStatus store nid data T).2 = true
      unfold isActiveAt
      show (match some (T + threeDaysMs) with
            | none => true
            | some e => decide (T + threeDaysMs - 1000 < e)) = true
      exact decide_eq_true (by omega)

/-- Witness for C8 at a concrete store, creation time 0, and a nontrivial
sequence of later operations (a cleanup tick and an unrelated delete). -/
theorem C8_status_expiry_witness :
    StatusInv statusStoreSample 3 ∧
    ((createStatus statusStoreSample 3 insertStatusSample 0).2.expiresAt
        = some (0 + threeDaysMs) ∧
    (mapGet (applyStatusOps [StatusOp.cleanup 2000, StatusOp.del 2]
        ((createStatus statusStoreSample 3 insertStatusSample 0).1, 3 + 1)).1 3
        = some (createStatus statusStoreSample 3 insertStatusSample 0).2 →
      (createStatus statusStoreSample 3 insertStatusSample 0).2
        = (createStatus statusStoreSample 3 insertStatusSample 0).2) ∧
    (createStatus statusStoreSample 3 insertStatusSample 0).2
      ∈ getActiveStatuses (0 + threeDaysMs - 1000)
          (createStatus statusStoreSample 3 insertStatusSample 0).1) :=
  ⟨by decide,
    C8_status_expiry statusStoreSample 3 insertStatusSample 0
      [StatusOp.cleanup 2000, StatusOp.del 2]
      (createStatus statusStoreSample 3 insertStatusSample 0).2 (by decide)⟩

/-! ### Expiry-scan failure semantics (C9) -/

theorem messageCleanupFallible_abort (failsOn : Nat → Bool) (now : Int)
    (k : Nat) (m : Message) (post : List (Nat × Message))
    (he : msgEligible now m = true) (hf : failsOn k = true) :
    ∀ pre store,
      (∀ p ∈ pre, msgEligible now p.2 = true → failsOn p.1 = false) →
      messageCleanupFallible failsOn now (pre ++ (k, m) :: post) store =
        (messageCleanupAux now pre store, false) := by
  intro pre
  induction pre with
  | nil =>
    intro store _
    show messageCleanupFallible failsOn now ((k, m) :: post) store = (store, false)
    unfold messageCleanupFallible
    rw [if_pos he, if_pos hf]
  | cons p rest ih =>
    intro store hpre
    show messageCleanupFallible failsOn now (p :: (rest ++ (k, m) :: post)) store
        = (messageCleanupAux now (p :: rest) store, false)
    by_cases hel : msgEligible now p.2
    · have hpf : failsOn p.1 = false := hpre p (List.mem_cons_self p rest) hel
      unfold messageCleanupFallible
      rw [if_pos hel, if_neg (by simp [hpf])]
      rw [ih (deleteMessage store p.1)
        (fun q hq => hpre q (List.mem_cons_of_mem p hq))]
      show _ = (messageCleanupAux now rest (if msgEligible now p.2
        then deleteMessage store p.1 else store), false)
      rw [if_pos hel]
    · unfold messageCleanupFallible
      rw [if_neg hel]
      rw [ih store (fun q hq => hpre q (List.mem_cons_of_mem p hq))]
      show _ = (messageCleanupAux now rest (if msgEligible now p.2
        then deleteMessage store p.1 else store), false)
      rw [if_neg hel]

/-- C9 fails as stated on the code: the daily cleanup loop has no
per-item error handling, so a rejected `deleteMessage` aborts the whole
tick. Concretely, with two messages both satisfying the retirement rule
at the tick time and the delete of message 1 rejecting, the scan does
not complete and message 2 — eligible in that same tick — is left
unretired (`isDeleted` still false). -/
theorem C9_counterexample :
    (messageCleanupFallible (fun i => decide (i = 1)) 1728000001
        msgStoreSample msgStoreSample).2 = false ∧
    mapGet (messageCleanupFallible (fun i => decide (i = 1)) 1728000001
        msgStoreSample msgStoreSample).1 2 = some msgNewSample ∧
    msgEligible 1728000001 msgNewSample = true ∧
    msgNewSample.isDeleted = false := by
  refine ⟨rfl, rfl, rfl, rfl⟩

/-- C9 (amended): a failure while retiring one entity ABORTS the
remainder of that tick's scan (there is no per-item try/catch): when the
first failing eligible entity is reached, the tick's result is exactly
the processing of the entries before it, the scan is marked incomplete,
and any entity not among those earlier entries — in particular every
eligible entity later in iteration order — is left untouched until a
later tick. -/
theorem C9_scan_abort_amended (failsOn : Nat → Bool) (now : Int)
    (pre post : List (Nat × Message)) (k : Nat) (m : Message)
    (store : MsgStore) (id : Nat)
    (hpre : ∀ p ∈ pre, msgEligible now p.2 = true → failsOn p.1 = false)
    (he : msgEligible now m = true) (hf : failsOn k = true)
    (hid : ∀ p ∈ pre, p.1 ≠ id) :
    messageCleanupFallible failsOn now (pre ++ (k, m) :: post) store =
      (messageCleanupAux now pre store, false) ∧
    mapGet (messageCleanupFallible failsOn now (pre ++ (k, m) :: post) store).1 id
      = mapGet store id := by
  have h1 := messageCleanupFallible_abort failsOn now k m post he hf pre store hpre
  refine ⟨h1, ?_⟩
  rw [h1]
  exact messageCleanupAux_not_mem now pre store id hid

/-- Witness for the amended C9: failure on the very first eligible entity
(message 1) leaves the tick's store untouched, including eligible
message 2. -/
theorem C9_scan_abort_amended_witness :
    (∀ p ∈ ([] : List (Nat × Message)),
      msgEligible 1728000001 p.2 = true → (fun i => decide (i = 1)) p.1 = false) ∧
    msgEligible 1728000001 msgOldSample = true ∧
    (fun i => decide (i = 1)) 1 = true ∧
    (∀ p ∈ ([] : List (Nat × Message)), p.1 ≠ 2) ∧
    (messageCleanupFallible (fun i => decide (i = 1)) 1728000001
        ([] ++ (1, msgOldSample) :: [(2, msgNewSample)]) msgStoreSample =
      (messageCleanupAux 1728000001 [] msgStoreSample, false) ∧
    mapGet (messageCleanupFallible (fun i => decide (i = 1)) 1728000001
        ([] ++ (1, msgOldSample) :: [(2, msgNewSample)]) msgStoreSample).1 2
      = mapGet msgStoreSample 2) :=
  ⟨by decide, by decide, by decide, by decide,
    C9_scan_abort_amended (fun i => decide (i = 1)) 1728000001
      [] [(2, msgNewSample)] 1 msgOldSample msgStoreSample 2
      (by decide) (by decide) (by decide) (by decide)⟩

/-- C10 fails in one clause as stated: the removal-on-close of all `k`
occurrences only happens for a connection tagged with a nonzero
identity. Socket 7 registered twice under identity 0 keeps both
occurrences after its close event, because the close handler guards on
JS truthiness of `ws.userId`. -/
theorem C10_counterexample :
    connectionsFor (closeHandler (authTimes 0 7 2) (some 0) 7) 0 = [7, 7] := by
  rfl
